import Mathlib

/-!
# Minnow utility layer: descriptors, sockets, datagram exchange

A shallow embedding of `util/file_descriptor.hh`, `util/socket.cc` and the
function `pretty_print` of `util/helpers.cc`.

Conventions of the embedding.

* An object that a C++ method mutates through `this` or through a reference
  parameter is passed in and returned explicitly.  A C++ exception is an
  `Except.error` in the `result` field of the returned record; the other
  fields of the record hold the state as the exception leaves it.
* Every operating-system call the code issues is appended to a `trace`, and
  what the kernel answers is an argument of the embedded function.  The
  helpers `CheckSystemCall` and `CheckFDSystemCall` are applied to the
  kernel's return value at the call site; the embedded functions receive
  their outcome (`Except Error _`): `.ok v` when the checked call returned
  `v`, `.error e` when the check threw `e`.
* A length is a natural number.  Arithmetic on `size_t` wraps at `2 ^ 64` and
  arithmetic on the two `unsigned` event counters wraps at `2 ^ 32`.
* Where a `std::string` has to grow, the allocator decides where its storage
  lies afterwards; that address is an argument of the embedded function.
-/

set_option linter.dupNamespace false

namespace Minnow

/-! ## Errors -/

/-- The two exception classes thrown by the socket layer: `std::runtime_error`
with its message, and `unix_error` with the attempted operation and the OS
error code. -/
inductive Error where
  | runtime_error (what : String)
  | unix_error (attempt : String) (code : Int)
  deriving DecidableEq, Repr

/-- Whether an outcome is a normal return. -/
def returned {α : Type} : Except Error α → Bool
  | .ok _ => true
  | .error _ => false

/-- Whether an outcome is a thrown exception. -/
def raised {α : Type} : Except Error α → Bool
  | .ok _ => false
  | .error _ => true

/-! ## Buffers -/

/-- A run of characters in memory, as `std::string_view` and `std::string`
present it: `data()` (the address of the first character, standing for the
identity of the storage) and the characters themselves. -/
structure string_view where
  data : Nat
  bytes : List UInt8
  deriving DecidableEq, Repr

/-- The method `size()`. -/
def string_view.size (x : string_view) : Nat := x.bytes.length

/-- The method `empty()`. -/
def string_view.empty (x : string_view) : Bool := x.size == 0

/-- A `std::string` passed by reference; it offers the same `data()`, `size()`
and `empty()` and converts to a `string_view` of itself. -/
abbrev std_string := string_view

/-- The method `std::string::resize(n)`: keeps the first `n` characters and pads
with zero characters up to length `n`.  A string that does not grow keeps its
storage; one that grows may be moved, and `fresh` is the address of its
storage afterwards, as the allocator chose it (the old address or another). -/
def std_string.resize (x : std_string) (n : Nat) (fresh : Nat) : std_string :=
  { data := if n ≤ x.size then x.data else fresh,
    bytes := x.bytes.take n ++ List.replicate (n - x.bytes.length) 0 }

/-- The OS structure `iovec`. -/
structure iovec where
  iov_base : Nat
  iov_len : Nat
  deriving DecidableEq, Repr

/-- What `to_iovecs` leaves behind: the caller's `iovecs` vector and either the
returned aggregate size or the exception. -/
structure IovecsOutcome where
  iovecs : List iovec
  result : Except Error Nat

/-- The range of `size_t` (64-bit targets). -/
def SIZE_RANGE : Nat := 2 ^ 64

/-- The `for` loop of `to_iovecs`, with the vector and the running total;
`total_size += x.size()` is an addition on `size_t`. -/
def to_iovecs_loop : List string_view → List iovec → Nat → IovecsOutcome
  | [], iovecs, total_size => ⟨iovecs, .ok total_size⟩
  | x :: rest, iovecs, total_size =>
    if x.empty then
      ⟨iovecs, .error (.runtime_error "to_iovecs called with empty buffer in buffer list")⟩
    else
      to_iovecs_loop rest (iovecs ++ [⟨x.data, x.size⟩]) ((total_size + x.size) % SIZE_RANGE)

/-- The static member `FileDescriptor::to_iovecs( buffers, iovecs )`. -/
def to_iovecs (buffers : List string_view) (iovecs : List iovec) : IovecsOutcome :=
  if buffers.isEmpty then
    ⟨iovecs, .error (.runtime_error "to_iovecs called with empty buffer list")⟩
  else
    match to_iovecs_loop buffers [] 0 with
    | ⟨iovecs, .error e⟩ => ⟨iovecs, .error e⟩
    | ⟨iovecs, .ok total_size⟩ =>
      if total_size == 0 then
        ⟨iovecs, .error (.runtime_error "to_iovecs called with zero-size buffer list")⟩
      else
        ⟨iovecs, .ok total_size⟩

/-! ## The kernel handle -/

/-- The class `FileDescriptor::FDWrapper`: the descriptor number, the three flags
and the two event counters. -/
structure FDWrapper where
  fd_ : Int
  eof_ : Bool
  closed_ : Bool
  non_blocking_ : Bool
  read_count_ : Nat
  write_count_ : Nat
  deriving DecidableEq, Repr

/-- A `FileDescriptor` is a shared pointer to one `FDWrapper`; an operation on the
handle is an operation on the wrapper it points to. -/
abbrev FileDescriptor := FDWrapper

/-- The range of `unsigned int`, the type of both counters. -/
def UINT_RANGE : Nat := 2 ^ 32

/-- The accessor `fd_num()`. -/
def FDWrapper.fd_num (s : FileDescriptor) : Int := s.fd_
/-- The accessor `eof()`. -/
def FDWrapper.eof (s : FileDescriptor) : Bool := s.eof_
/-- The accessor `closed()`. -/
def FDWrapper.closed (s : FileDescriptor) : Bool := s.closed_
/-- The accessor `blocking()`. -/
def FDWrapper.blocking (s : FileDescriptor) : Bool := !s.non_blocking_
/-- The accessor `read_count()`. -/
def FDWrapper.read_count (s : FileDescriptor) : Nat := s.read_count_
/-- The accessor `write_count()`. -/
def FDWrapper.write_count (s : FileDescriptor) : Nat := s.write_count_

/-- The method `register_read()`: `++read_count_` on an `unsigned`. -/
def register_read (s : FileDescriptor) : FileDescriptor :=
  { s with read_count_ := (s.read_count_ + 1) % UINT_RANGE }

/-- The method `register_write()`: `++write_count_` on an `unsigned`. -/
def register_write (s : FileDescriptor) : FileDescriptor :=
  { s with write_count_ := (s.write_count_ + 1) % UINT_RANGE }

/-- The constant `kReadBufferSize`. -/
def kReadBufferSize : Nat := 16384

/-! ## The operating system as seen from the socket layer -/

/-- The type `Address::Raw`, an untyped socket-address record. -/
abbrev Address.Raw := List UInt8

/-- An `Address` as the socket layer builds it: the raw record and its declared
length. -/
structure Address where
  raw : Address.Raw
  size : Nat
  deriving DecidableEq, Repr

/-- What the build fixes: whether `__linux__` is defined, and
`sizeof( Address::Raw )`, the size of a type declared with `Address`. -/
structure Platform where
  linux : Bool
  sizeof_Raw : Nat
  deriving DecidableEq, Repr

/-- The value of `sizeof( int )`. -/
def sizeof_int : Nat := 4

/-- Constants of `<sys/socket.h>` (Linux values). -/
def SHUT_RD : Int := 0
/-- See `SHUT_RD`. -/
def SHUT_WR : Int := 1
/-- See `SHUT_RD`. -/
def SHUT_RDWR : Int := 2
/-- The receive flag and message flag `MSG_TRUNC`. -/
def MSG_TRUNC : Nat := 0x20
/-- The option level `SOL_SOCKET`. -/
def SOL_SOCKET : Int := 1
/-- The option `SO_TYPE`. -/
def SO_TYPE : Int := 3
/-- The option `SO_ERROR`. -/
def SO_ERROR : Int := 4
/-- The option `SO_PROTOCOL`. -/
def SO_PROTOCOL : Int := 38
/-- The option `SO_DOMAIN`. -/
def SO_DOMAIN : Int := 39

/-- One call into the operating system, with the arguments the code passes. -/
inductive Syscall where
  | getsockopt (fd : Int) (level : Int) (option : Int)
  | shutdown (fd : Int) (how : Int)
  | recvfrom (fd : Int) (buf : Nat) (len : Nat) (flags : Nat)
  | recvmsg (fd : Int) (msg_iov : List iovec) (flags : Nat)
  | sendto (fd : Int) (buf : Nat) (len : Nat) (flags : Nat) (dest : Option Address)
  | sendmsg (fd : Int) (msg_iov : List iovec) (flags : Nat) (dest : Option Address)
  | accept (fd : Int)
  | close (fd : Int)
  deriving DecidableEq, Repr

/-- What a method leaves behind: the handle's state, the OS calls it issued, in
order, and its return value or exception. -/
structure Outcome (α : Type) where
  fd : FileDescriptor
  trace : List Syscall
  result : Except Error α

/-- The kernel's answer to one `getsockopt`: the outcome of `CheckSystemCall` on
its return value, and the length and value it stored. -/
structure GetsockoptReply where
  checked : Except Error Unit
  optlen : Nat
  option_value : Int

/-- The kernel's answer to one `recvfrom`: the outcome of `CheckFDSystemCall` on
its return value, the datagram it copied from, and the sender record with its
length. -/
structure RecvfromReply where
  checked : Except Error Nat
  datagram : List UInt8
  raw_source_address : Address.Raw
  namelen : Nat

/-- The kernel's answer to one `recvmsg`: as for `recvfrom`, with the message
flags it set. -/
structure RecvmsgReply where
  checked : Except Error Nat
  datagram : List UInt8
  raw_source_address : Address.Raw
  msg_namelen : Nat
  msg_flags : Nat

/-- The kernel copying a datagram to a buffer: it overwrites the front of the
buffer with as much of the datagram as fits and never changes its size. -/
def kernel_store (buf : std_string) (datagram : List UInt8) : std_string :=
  { buf with bytes := datagram.take buf.size ++ buf.bytes.drop datagram.length }

/-- The kernel copying a datagram to a list of buffers, front to back. -/
def kernel_scatter : List std_string → List UInt8 → List std_string
  | [], _ => []
  | buf :: rest, datagram =>
    kernel_store buf datagram :: kernel_scatter rest (datagram.drop buf.size)

/-! ## Socket -/

/-- The template `Socket::getsockopt( level, option, option_value )`: the returned
length together with the value stored in `option_value`. -/
def Socket.getsockopt (reply : GetsockoptReply) : Except Error (Nat × Int) :=
  match reply.checked with
  | .error e => .error e
  | .ok _ => .ok (reply.optlen, reply.option_value)

/-- The kernel's answers to the three queries of the adopting constructor. -/
structure AdoptReplies where
  domain : GetsockoptReply
  protocol : GetsockoptReply
  type : GetsockoptReply

/-- The last block of the adopting constructor, `// verify type`. -/
def Socket.verify_type (fd : FileDescriptor) (type : Int) (os : AdoptReplies)
    (trace : List Syscall) : Outcome FileDescriptor :=
  let trace := trace ++ [Syscall.getsockopt fd.fd_num SOL_SOCKET SO_TYPE]
  match Socket.getsockopt os.type with
  | .error e => ⟨fd, trace, .error e⟩
  | .ok (len, actual_value) =>
    if len ≠ sizeof_int ∨ actual_value ≠ type then
      ⟨fd, trace, .error (.runtime_error "socket type mismatch")⟩
    else
      ⟨fd, trace, .ok fd⟩

/-- The block `// verify protocol` and what follows it. -/
def Socket.verify_protocol (fd : FileDescriptor) (type protocol : Int) (os : AdoptReplies)
    (trace : List Syscall) : Outcome FileDescriptor :=
  let trace := trace ++ [Syscall.getsockopt fd.fd_num SOL_SOCKET SO_PROTOCOL]
  match Socket.getsockopt os.protocol with
  | .error e => ⟨fd, trace, .error e⟩
  | .ok (len, actual_value) =>
    if len ≠ sizeof_int ∨ actual_value ≠ protocol then
      ⟨fd, trace, .error (.runtime_error "socket protocol mismatch")⟩
    else
      Socket.verify_type fd type os trace

/-- The body of the constructor `Socket::Socket( FileDescriptor&& fd, int domain,
int type, int protocol )`, run on the base subobject that `fd` was moved into;
the result is the adopted handle. -/
def Socket.Socket_body (P : Platform) (fd : FileDescriptor) (domain type protocol : Int)
    (os : AdoptReplies) : Outcome FileDescriptor :=
  if P.linux then
    let trace := [Syscall.getsockopt fd.fd_num SOL_SOCKET SO_DOMAIN]
    match Socket.getsockopt os.domain with
    | .error e => ⟨fd, trace, .error e⟩
    | .ok (len, actual_value) =>
      if len ≠ sizeof_int ∨ actual_value ≠ domain then
        ⟨fd, trace, .error (.runtime_error "socket domain mismatch")⟩
      else
        Socket.verify_protocol fd type protocol os trace
  else
    Socket.verify_type fd type os []

/-- Modelled from the spec: the end of one handle's life, which in the code is
`~FileDescriptor`, `~FDWrapper` and `FDWrapper::close` of `file_descriptor.cc`.
The kernel handle is "destroyed (OS-level release issued) exactly when the
last DescriptorHandle referencing it is dropped", a descriptor is released
once only, and a release at scope exit never fails loudly.  `others` is the
number of other handles that share the wrapper; the result is the wrapper
that remains, if any, and the OS calls issued. -/
def drop_handle (w : FDWrapper) (others : Nat) : Option FDWrapper × List Syscall :=
  if others = 0 then
    (none, if w.closed_ then [] else [Syscall.close w.fd_num])
  else
    (some w, [])

/-- What the adopting constructor leaves behind: the wrapper the caller's handle
pointed to (`none` once it is destroyed), the OS calls issued, and the adopted
handle or the exception. -/
structure AdoptOutcome where
  wrapper : Option FDWrapper
  trace : List Syscall
  result : Except Error FileDescriptor

/-- The constructor `Socket::Socket( FileDescriptor&& fd, int domain, int type,
int protocol )`.  The member initialiser `FileDescriptor( move( fd ) )` moves the
caller's handle into the base subobject, so the caller's handle is empty from
then on; an exception leaving the body destroys that base subobject and with
it the handle.  `others` is the number of other handles sharing the wrapper. -/
def Socket.Socket (P : Platform) (fd : FileDescriptor) (others : Nat)
    (domain type protocol : Int) (os : AdoptReplies) : AdoptOutcome :=
  let body := Socket.Socket_body P fd domain type protocol os
  match body.result with
  | .ok adopted => ⟨some body.fd, body.trace, .ok adopted⟩
  | .error e =>
    let dropped := drop_handle body.fd others
    ⟨dropped.1, body.trace ++ dropped.2, .error e⟩

/-- The method `Socket::shutdown( how )`; `checked` is the outcome of
`CheckSystemCall( "shutdown", ... )`. -/
def Socket.shutdown (fd : FileDescriptor) (how : Int) (checked : Except Error Int) :
    Outcome Unit :=
  let trace := [Syscall.shutdown fd.fd_num how]
  match checked with
  | .error e => ⟨fd, trace, .error e⟩
  | .ok _ =>
    if how = SHUT_RD then
      ⟨register_read fd, trace, .ok ()⟩
    else if how = SHUT_WR then
      ⟨register_write fd, trace, .ok ()⟩
    else if how = SHUT_RDWR then
      ⟨register_write (register_read fd), trace, .ok ()⟩
    else
      ⟨fd, trace, .error (.runtime_error "Socket::shutdown() called with invalid `how`")⟩

/-- The method `Socket::throw_if_error()`. -/
def Socket.throw_if_error (fd : FileDescriptor) (reply : GetsockoptReply) : Outcome Unit :=
  let trace := [Syscall.getsockopt fd.fd_num SOL_SOCKET SO_ERROR]
  match Socket.getsockopt reply with
  | .error e => ⟨fd, trace, .error e⟩
  | .ok (len, socket_error) =>
    if len ≠ sizeof_int then
      ⟨fd, trace, .error (.runtime_error ("unexpected length from getsockopt: " ++ toString len))⟩
    else if socket_error ≠ 0 then
      ⟨fd, trace, .error (.unix_error "socket error" socket_error)⟩
    else
      ⟨fd, trace, .ok ()⟩

/-! ## TCPSocket -/

/-- The method `TCPSocket::accept()` on a listener.  `checked` is the outcome of
`CheckSystemCall( "accept", ... )`; `construct` is the expression
`TCPSocket( FileDescriptor( n ) )`, whose two constructors are not part of
`socket.cc`.  The trace lists the calls made on the listener. -/
def TCPSocket.accept (fd : FileDescriptor) (checked : Except Error Int)
    (construct : Int → Except Error FileDescriptor) : Outcome FileDescriptor :=
  let fd := register_read fd
  let trace := [Syscall.accept fd.fd_num]
  match checked with
  | .error e => ⟨fd, trace, .error e⟩
  | .ok new_fd => ⟨fd, trace, construct new_fd⟩

/-! ## DatagramSocket -/

/-- What a receive leaves behind: the handle, the two reference parameters, the OS
calls issued and the normal return or exception. -/
structure RecvOutcome (β : Type) where
  fd : FileDescriptor
  source_address : Address
  payload : β
  trace : List Syscall
  result : Except Error Unit

/-- The method `DatagramSocket::recv( Address& source_address, string& payload )`;
`fresh` is where the storage of an auto-sized buffer lies after its `resize`. -/
def DatagramSocket.recv (P : Platform) (fd : FileDescriptor) (source_address : Address)
    (payload : std_string) (fresh : Nat) (reply : RecvfromReply) : RecvOutcome std_string :=
  let payload := if payload.empty then payload.resize kReadBufferSize fresh else payload
  let trace := [Syscall.recvfrom fd.fd_num payload.data payload.size MSG_TRUNC]
  match reply.checked with
  | .error e => ⟨fd, source_address, payload, trace, .error e⟩
  | .ok recv_len =>
    let payload := kernel_store payload reply.datagram
    let fd := register_read fd
    if recv_len > payload.size then
      ⟨fd, source_address, payload, trace, .error (.runtime_error
        ("recvfrom (oversized datagram of length " ++ toString recv_len ++ ")"))⟩
    else if reply.namelen ≤ 0 ∨ reply.namelen > P.sizeof_Raw then
      ⟨fd, source_address, payload, trace, .error (.runtime_error "recvfrom gave invalid namelen")⟩
    else
      ⟨fd, ⟨reply.raw_source_address, reply.namelen⟩, payload, trace, .ok ()⟩

/-- The statement `if ( payloads.back().empty() ) payloads.back().resize( kReadBufferSize )`
on a non-empty vector; `fresh` is where the storage of the resized buffer lies. -/
def resize_back_if_empty (payloads : List std_string) (fresh : Nat) : List std_string :=
  match payloads.getLast? with
  | none => payloads
  | some back =>
    if back.empty then payloads.dropLast ++ [back.resize kReadBufferSize fresh] else payloads

/-- The closing loop of the vectored `recv`, over the buffers and `remaining_size`.
Its `resize` only ever shortens, so the storage stays where it is. -/
def recv_distribute : List std_string → Nat → List std_string
  | [], _ => []
  | buf :: rest, remaining_size =>
    if remaining_size ≥ buf.size then
      buf :: recv_distribute rest (remaining_size - buf.size)
    else
      buf.resize remaining_size buf.data :: recv_distribute rest 0

/-- The method `DatagramSocket::recv( Address& source_address, vector<string>& payloads )`.
The thread-local `iovecs` is cleared by `to_iovecs` before use, so its previous
content plays no part. -/
def DatagramSocket.recv_vector (P : Platform) (fd : FileDescriptor) (source_address : Address)
    (payloads : List std_string) (fresh : Nat) (reply : RecvmsgReply) :
    RecvOutcome (List std_string) :=
  if payloads.isEmpty then
    ⟨fd, source_address, payloads, [], .error (.runtime_error
      "DatagramSocket::recv called with no payload buffers")⟩
  else
    let payloads := resize_back_if_empty payloads fresh
    match to_iovecs payloads [] with
    | ⟨_, .error e⟩ => ⟨fd, source_address, payloads, [], .error e⟩
    | ⟨iovecs, .ok total_size⟩ =>
      let trace := [Syscall.recvmsg fd.fd_num iovecs MSG_TRUNC]
      match reply.checked with
      | .error e => ⟨fd, source_address, payloads, trace, .error e⟩
      | .ok recv_len =>
        let payloads := kernel_scatter payloads reply.datagram
        let fd := register_read fd
        if recv_len > total_size then
          ⟨fd, source_address, payloads, trace, .error (.runtime_error
            ("recvmsg (oversized datagram of length " ++ toString recv_len ++ ")"))⟩
        else if reply.msg_flags &&& MSG_TRUNC ≠ 0 then
          ⟨fd, source_address, payloads, trace, .error (.runtime_error
            "recvmsg (oversized datagram indicated only by MSG_TRUNC)")⟩
        else if reply.msg_namelen ≤ 0 ∨ reply.msg_namelen > P.sizeof_Raw then
          ⟨fd, source_address, payloads, trace, .error (.runtime_error
            "recvmsg gave invalid namelen")⟩
        else
          ⟨fd, ⟨reply.raw_source_address, reply.msg_namelen⟩,
            recv_distribute payloads recv_len, trace, .ok ()⟩

/-- The method `DatagramSocket::send( string_view payload, const optional<Address>&
destination )`; `checked` is the outcome of `CheckFDSystemCall( "sendto", ... )`. -/
def DatagramSocket.send (fd : FileDescriptor) (payload : string_view)
    (destination : Option Address) (checked : Except Error Nat) : Outcome Unit :=
  let trace := [Syscall.sendto fd.fd_num payload.data payload.size 0 destination]
  match checked with
  | .error e => ⟨fd, trace, .error e⟩
  | .ok bytes_sent =>
    let fd := register_write fd
    if bytes_sent ≠ payload.size then
      ⟨fd, trace, .error (.runtime_error "sendto sent some length other than that of payload")⟩
    else
      ⟨fd, trace, .ok ()⟩

/-- The method `DatagramSocket::send( vector<iovec>& iovecs, size_t total_size, const
optional<Address>& destination )`; `checked` is the outcome of
`CheckFDSystemCall( "sendmsg", ... )`. -/
def DatagramSocket.send_iovecs (fd : FileDescriptor) (iovecs : List iovec) (total_size : Nat)
    (destination : Option Address) (checked : Except Error Nat) : Outcome Unit :=
  let trace := [Syscall.sendmsg fd.fd_num iovecs 0 destination]
  match checked with
  | .error e => ⟨fd, trace, .error e⟩
  | .ok bytes_sent =>
    let fd := register_write fd
    if bytes_sent ≠ total_size then
      ⟨fd, trace, .error (.runtime_error "sendmsg sent some length other than that of payload")⟩
    else
      ⟨fd, trace, .ok ()⟩

/-! ## Helpers -/

/-- The library function `isprint` of `<cctype>` in the "C" locale, the one in
force at program start: the characters from space to tilde. -/
def isprint (ch : UInt8) : Bool := 0x20 ≤ ch.toNat && ch.toNat ≤ 0x7e

/-- One lower-case hexadecimal digit, as the stream writes it under `hex`. -/
def hex_digit (d : Nat) : UInt8 := if d < 10 then UInt8.ofNat (0x30 + d) else UInt8.ofNat (0x57 + d)

/-- What `ss << "\\x" << fixed << setw( 2 ) << setfill( '0' ) << hex <<
static_cast<size_t>( ch )` appends: a backslash, an `x`, and the value of `ch`
in two hexadecimal digits. -/
def hex_escape (ch : UInt8) : List UInt8 :=
  [0x5c, 0x78, hex_digit (ch.toNat / 16), hex_digit (ch.toNat % 16)]

/-- The `for` loop of `pretty_print`, over the characters still to visit and the
content of `ss`; it yields that content and the flag `truncated`. -/
def pretty_print_loop : List UInt8 → Nat → List UInt8 → List UInt8 × Bool
  | [], _, ss => (ss, false)
  | ch :: rest, max_length, ss =>
    if ss.length ≥ max_length then
      (ss, true)
    else if isprint ch && ch != 0x22 then
      pretty_print_loop rest max_length (ss ++ [ch])
    else
      pretty_print_loop rest max_length (ss ++ hex_escape ch)

/-- The function `pretty_print( str, max_length )` of `helpers.cc`; the result is
the content of the returned string. -/
def pretty_print (str : string_view) (max_length : Nat) : List UInt8 :=
  match pretty_print_loop str.bytes max_length [] with
  | (ret, truncated) =>
    if truncated then
      if ret.length ≥ 3 then
        ret.take (ret.length - 3) ++ [0x2e, 0x2e, 0x2e]
      else
        ret ++ [0x2e, 0x2e, 0x2e]
    else
      ret

/-! ## Auxiliary facts -/

theorem to_iovecs_loop_ok (buffers : List string_view) :
    ∀ (iovecs : List iovec) (total_size : Nat), total_size < SIZE_RANGE →
      (∀ x ∈ buffers, x.size ≠ 0) →
      to_iovecs_loop buffers iovecs total_size =
        ⟨iovecs ++ buffers.map (fun x => (⟨x.data, x.size⟩ : iovec)),
          .ok ((total_size + (buffers.map string_view.size).sum) % SIZE_RANGE)⟩ := by
  induction buffers with
  | nil => intro iovecs total_size hlt _; simp [to_iovecs_loop, Nat.mod_eq_of_lt hlt]
  | cons x rest ih =>
    intro iovecs total_size _ h
    have hx : x.size ≠ 0 := h x (List.mem_cons_self x rest)
    have hrest : ∀ y ∈ rest, y.size ≠ 0 := fun y hy => h y (List.mem_cons_of_mem x hy)
    have hpos : 0 < SIZE_RANGE := by decide
    have hmod : (total_size + x.size) % SIZE_RANGE < SIZE_RANGE := Nat.mod_lt _ hpos
    simp [to_iovecs_loop, string_view.empty, hx, ih _ _ hmod hrest, Nat.add_assoc]

theorem to_iovecs_loop_raises (buffers : List string_view) :
    ∀ (iovecs : List iovec) (total_size : Nat), (∃ x ∈ buffers, x.size = 0) →
      raised (to_iovecs_loop buffers iovecs total_size).result = true := by
  induction buffers with
  | nil => intro _ _ h; simp at h
  | cons x rest ih =>
    intro iovecs total_size h
    by_cases hx : x.size = 0
    · simp [to_iovecs_loop, string_view.empty, hx, raised]
    · have hrest : ∃ y ∈ rest, y.size = 0 := by
        obtain ⟨y, hy, hy0⟩ := h
        rcases List.mem_cons.mp hy with rfl | hy
        · exact absurd hy0 hx
        · exact ⟨y, hy, hy0⟩
      simp [to_iovecs_loop, string_view.empty, hx, ih _ _ hrest]

theorem sum_sizes_pos (buffers : List string_view) (hne : buffers ≠ [])
    (h : ∀ x ∈ buffers, x.size ≠ 0) : 0 < (buffers.map string_view.size).sum := by
  cases buffers with
  | nil => exact absurd rfl hne
  | cons x rest =>
    have hx : x.size ≠ 0 := h x (List.mem_cons_self x rest)
    simp only [List.map_cons, List.sum_cons]
    omega

/-- On a non-empty list without an empty element `to_iovecs` fills `iovecs` and
then looks at the sum of the sizes as a `size_t`, that is modulo `SIZE_RANGE`:
zero raises, anything else is returned. -/
theorem to_iovecs_wrapped (buffers : List string_view) (iovecs : List iovec)
    (hne : buffers ≠ []) (h : ∀ x ∈ buffers, x.size ≠ 0) :
    to_iovecs buffers iovecs =
      if (buffers.map string_view.size).sum % SIZE_RANGE = 0 then
        ⟨buffers.map (fun x => (⟨x.data, x.size⟩ : iovec)),
          .error (.runtime_error "to_iovecs called with zero-size buffer list")⟩
      else
        ⟨buffers.map (fun x => (⟨x.data, x.size⟩ : iovec)),
          .ok ((buffers.map string_view.size).sum % SIZE_RANGE)⟩ := by
  have hloop := to_iovecs_loop_ok buffers [] 0 (by decide) h
  simp only [Nat.zero_add, List.nil_append] at hloop
  unfold to_iovecs
  rw [hloop]
  simp [hne]

theorem to_iovecs_ok (buffers : List string_view) (iovecs : List iovec)
    (hne : buffers ≠ []) (h : ∀ x ∈ buffers, x.size ≠ 0)
    (hfit : (buffers.map string_view.size).sum < SIZE_RANGE) :
    to_iovecs buffers iovecs =
      ⟨buffers.map (fun x => (⟨x.data, x.size⟩ : iovec)),
        .ok (buffers.map string_view.size).sum⟩ := by
  have hpos := sum_sizes_pos buffers hne h
  have hnz : (buffers.map string_view.size).sum % SIZE_RANGE ≠ 0 := by
    rw [Nat.mod_eq_of_lt hfit]; omega
  rw [to_iovecs_wrapped buffers iovecs hne h, if_neg hnz, Nat.mod_eq_of_lt hfit]

theorem to_iovecs_raises (buffers : List string_view) (iovecs : List iovec)
    (h : buffers = [] ∨ ∃ x ∈ buffers, x.size = 0) :
    raised (to_iovecs buffers iovecs).result = true := by
  rcases h with rfl | h
  · simp [to_iovecs, raised]
  · by_cases hne : buffers = []
    · subst hne; simp at h
    · have hr := to_iovecs_loop_raises buffers [] 0 h
      unfold to_iovecs
      cases hloop : to_iovecs_loop buffers [] 0 with
      | mk iov res =>
        rw [hloop] at hr
        cases res with
        | error e => simp [hne, raised]
        | ok t => simp [raised] at hr

theorem size_resize (x : std_string) (n fresh : Nat) : (x.resize n fresh).size = n := by
  simp [std_string.resize, string_view.size]
  omega

theorem size_kernel_store (buf : std_string) (datagram : List UInt8) :
    (kernel_store buf datagram).size = buf.size := by
  simp [kernel_store, string_view.size]
  omega

theorem sizes_kernel_scatter (bufs : List std_string) :
    ∀ datagram : List UInt8,
      (kernel_scatter bufs datagram).map string_view.size = bufs.map string_view.size := by
  induction bufs with
  | nil => intro _; rfl
  | cons b rest ih => intro d; simp [kernel_scatter, size_kernel_store, ih]

theorem resize_back_concat (init : List std_string) (back : std_string) (fresh : Nat) :
    resize_back_if_empty (init ++ [back]) fresh =
      if back.size = 0 then init ++ [back.resize kReadBufferSize fresh]
      else init ++ [back] := by
  simp [resize_back_if_empty, string_view.empty]

/-- The single-buffer `recv` never changes the size the buffer has when it is
handed to the kernel: the size on entry, or `kReadBufferSize` for a buffer
that was empty on entry. -/
theorem recv_payload_size (P : Platform) (fd : FileDescriptor) (source_address : Address)
    (payload : std_string) (fresh : Nat) (reply : RecvfromReply) :
    (DatagramSocket.recv P fd source_address payload fresh reply).payload.size =
      if payload.size = 0 then kReadBufferSize else payload.size := by
  unfold DatagramSocket.recv
  by_cases h0 : payload.size = 0
  · cases hc : reply.checked with
    | error e => simp [string_view.empty, h0, size_resize]
    | ok n =>
      simp only [string_view.empty, h0, beq_self_eq_true, if_true, size_kernel_store,
        size_resize]
      split_ifs <;> simp [size_kernel_store, size_resize]
  · cases hc : reply.checked with
    | error e => simp [string_view.empty, h0]
    | ok n =>
      simp only [string_view.empty, h0, beq_iff_eq, if_false, size_kernel_store]
      split_ifs <;> simp [size_kernel_store]

/-- What the single-buffer `recv` does deliver on a normal return: the datagram at
the front of the buffer, and the sender the kernel reported. -/
theorem recv_payload_front (P : Platform) (fd : FileDescriptor) (source_address : Address)
    (payload : std_string) (fresh : Nat) (reply : RecvfromReply)
    (hok : reply.checked = .ok reply.datagram.length)
    (hret : returned (DatagramSocket.recv P fd source_address payload fresh reply).result
      = true) :
    (DatagramSocket.recv P fd source_address payload fresh reply).payload.bytes.take
        reply.datagram.length = reply.datagram ∧
    (DatagramSocket.recv P fd source_address payload fresh reply).source_address =
      ⟨reply.raw_source_address, reply.namelen⟩ := by
  have hstore : ∀ buf : std_string, reply.datagram.length ≤ buf.size →
      (kernel_store buf reply.datagram).bytes.take reply.datagram.length = reply.datagram := by
    intro buf hle
    simp only [kernel_store]
    rw [List.take_append_of_le_length (by simp; omega)]
    rw [List.take_take, List.take_of_length_le (by omega)]
  unfold DatagramSocket.recv at hret ⊢
  simp only [hok] at hret ⊢
  split_ifs at hret ⊢ with h1 h2 h3 h4 h5
  · simp [returned] at hret
  · simp [returned] at hret
  · simp only [size_kernel_store, gt_iff_lt, not_lt] at h2
    exact ⟨hstore _ h2, rfl⟩
  · simp [returned] at hret
  · simp [returned] at hret
  · simp only [size_kernel_store, gt_iff_lt, not_lt] at h4
    exact ⟨hstore _ h4, rfl⟩

/-- A call to `accept` whose OS call fails has counted a read all the same:
`register_read()` precedes the OS call. -/
theorem accept_counts_before_os_call (fd : FileDescriptor) (e : Error)
    (construct : Int → Except Error FileDescriptor) :
    (TCPSocket.accept fd (.error e) construct).fd.read_count =
      (fd.read_count + 1) % UINT_RANGE := by
  simp [TCPSocket.accept, register_read, FDWrapper.read_count]

theorem length_hex_escape (ch : UInt8) : (hex_escape ch).length = 4 := rfl

/-- The loop of `pretty_print` keeps the content of `ss` within `max_length + 3`
characters, and within `max_length` as long as it is shorter than three. -/
theorem pretty_print_loop_bound (max_length : Nat) (bytes : List UInt8) :
    ∀ ss : List UInt8,
      ss.length ≤ max_length + 3 → (ss.length < 3 → ss.length ≤ max_length) →
      (pretty_print_loop bytes max_length ss).1.length ≤ max_length + 3 ∧
      ((pretty_print_loop bytes max_length ss).1.length < 3 →
        (pretty_print_loop bytes max_length ss).1.length ≤ max_length) := by
  induction bytes with
  | nil => intro ss h1 h2; exact ⟨h1, h2⟩
  | cons ch rest ih =>
    intro ss h1 h2
    unfold pretty_print_loop
    split_ifs with hfull hprint
    · exact ⟨h1, h2⟩
    · apply ih
      · simp only [List.length_append, List.length_singleton]; omega
      · simp only [List.length_append, List.length_singleton]; omega
    · apply ih
      · simp only [List.length_append, length_hex_escape]; omega
      · simp only [List.length_append, length_hex_escape]; omega

/-- On printable characters other than the double quote that fit under
`max_length`, the loop of `pretty_print` copies them and does not truncate. -/
theorem pretty_print_loop_copy (max_length : Nat) (bytes : List UInt8) :
    ∀ ss : List UInt8,
      (∀ ch ∈ bytes, isprint ch = true ∧ ch ≠ 0x22) →
      ss.length + bytes.length ≤ max_length →
      pretty_print_loop bytes max_length ss = (ss ++ bytes, false) := by
  induction bytes with
  | nil => intro ss _ _; simp [pretty_print_loop]
  | cons ch rest ih =>
    intro ss hall hlen
    have hch := hall ch (List.mem_cons_self ch rest)
    have hrest : ∀ c ∈ rest, isprint c = true ∧ c ≠ 0x22 :=
      fun c hc => hall c (List.mem_cons_of_mem ch hc)
    simp only [List.length_cons] at hlen
    have hfull : ¬ ss.length ≥ max_length := by omega
    have hprint : (isprint ch && ch != 0x22) = true := by
      simp [hch.1, hch.2]
    unfold pretty_print_loop
    rw [if_neg hfull, if_pos hprint, ih (ss ++ [ch]) hrest (by
      simp only [List.length_append, List.length_singleton]; omega)]
    simp

/-- What the body of the adopting constructor decides when the kernel answers
each option query without error. -/
theorem adopt_body_checks (P : Platform) (fd : FileDescriptor) (domain type protocol : Int)
    (os : AdoptReplies)
    (hd : os.domain.checked = .ok ()) (hp : os.protocol.checked = .ok ())
    (ht : os.type.checked = .ok ()) :
    (Socket.Socket_body P fd domain type protocol os).fd = fd ∧
    (P.linux = true →
      (returned (Socket.Socket_body P fd domain type protocol os).result = true ↔
        (os.domain.optlen = sizeof_int ∧ os.domain.option_value = domain) ∧
        (os.protocol.optlen = sizeof_int ∧ os.protocol.option_value = protocol) ∧
        (os.type.optlen = sizeof_int ∧ os.type.option_value = type))) ∧
    (P.linux = false →
      (returned (Socket.Socket_body P fd domain type protocol os).result = true ↔
        (os.type.optlen = sizeof_int ∧ os.type.option_value = type))) ∧
    (returned (Socket.Socket_body P fd domain type protocol os).result = true →
      (Socket.Socket_body P fd domain type protocol os).result = .ok fd) ∧
    (returned (Socket.Socket_body P fd domain type protocol os).result = false →
      ∃ what, (Socket.Socket_body P fd domain type protocol os).result
        = .error (.runtime_error what)) := by
  have hvt : ∀ trace : List Syscall,
      (Socket.verify_type fd type os trace).fd = fd ∧
      (returned (Socket.verify_type fd type os trace).result = true ↔
        (os.type.optlen = sizeof_int ∧ os.type.option_value = type)) ∧
      (returned (Socket.verify_type fd type os trace).result = true →
        (Socket.verify_type fd type os trace).result = .ok fd) ∧
      (returned (Socket.verify_type fd type os trace).result = false →
        ∃ what, (Socket.verify_type fd type os trace).result
          = .error (.runtime_error what)) := by
    intro trace
    unfold Socket.verify_type
    simp only [Socket.getsockopt, ht]
    by_cases h : os.type.optlen ≠ sizeof_int ∨ os.type.option_value ≠ type
    · rw [if_pos h]
      refine ⟨rfl, ?_, ?_, ?_⟩
      · simp only [returned]
        constructor
        · intro hf; exact absurd hf (by decide)
        · rintro ⟨h1, h2⟩
          rcases h with h | h
          · exact absurd h1 h
          · exact absurd h2 h
      · intro hf; exact absurd hf (by simp [returned])
      · intro _; exact ⟨_, rfl⟩
    · rw [if_neg h]
      push_neg at h
      exact ⟨rfl, ⟨fun _ => h, fun _ => rfl⟩, fun _ => rfl, fun hf => absurd hf (by simp [returned])⟩
  have hvp : ∀ trace : List Syscall,
      (Socket.verify_protocol fd type protocol os trace).fd = fd ∧
      (returned (Socket.verify_protocol fd type protocol os trace).result = true ↔
        (os.protocol.optlen = sizeof_int ∧ os.protocol.option_value = protocol) ∧
        (os.type.optlen = sizeof_int ∧ os.type.option_value = type)) ∧
      (returned (Socket.verify_protocol fd type protocol os trace).result = true →
        (Socket.verify_protocol fd type protocol os trace).result = .ok fd) ∧
      (returned (Socket.verify_protocol fd type protocol os trace).result = false →
        ∃ what, (Socket.verify_protocol fd type protocol os trace).result
          = .error (.runtime_error what)) := by
    intro trace
    unfold Socket.verify_protocol
    simp only [Socket.getsockopt, hp]
    by_cases h : os.protocol.optlen ≠ sizeof_int ∨ os.protocol.option_value ≠ protocol
    · rw [if_pos h]
      refine ⟨rfl, ?_, ?_, ?_⟩
      · simp only [returned]
        constructor
        · intro hf; exact absurd hf (by decide)
        · rintro ⟨⟨h1, h2⟩, _⟩
          rcases h with h | h
          · exact absurd h1 h
          · exact absurd h2 h
      · intro hf; exact absurd hf (by simp [returned])
      · intro _; exact ⟨_, rfl⟩
    · rw [if_neg h]
      push_neg at h
      obtain ⟨h1, h2, h3, h4⟩ := hvt (trace ++ [Syscall.getsockopt fd.fd_num SOL_SOCKET SO_PROTOCOL])
      exact ⟨h1, ⟨fun hr => ⟨h, h2.mp hr⟩, fun hr => h2.mpr hr.2⟩, h3, h4⟩
  unfold Socket.Socket_body
  by_cases hl : P.linux = true
  · simp only [hl, if_true, Socket.getsockopt, hd]
    by_cases h : os.domain.optlen ≠ sizeof_int ∨ os.domain.option_value ≠ domain
    · rw [if_pos h]
      refine ⟨rfl, ?_, ?_, ?_, ?_⟩
      · intro _
        simp only [returned]
        constructor
        · intro hf; exact absurd hf (by decide)
        · rintro ⟨⟨h1, h2⟩, _⟩
          rcases h with h | h
          · exact absurd h1 h
          · exact absurd h2 h
      · intro hf; exact absurd hf (by decide)
      · intro hf; exact absurd hf (by simp [returned])
      · intro _; exact ⟨_, rfl⟩
    · rw [if_neg h]
      push_neg at h
      obtain ⟨h1, h2, h3, h4⟩ :=
        hvp [Syscall.getsockopt fd.fd_num SOL_SOCKET SO_DOMAIN]
      exact ⟨h1, fun _ => ⟨fun hr => ⟨h, h2.mp hr⟩, fun hr => h2.mpr hr.2⟩,
        fun hf => absurd hf (by decide), h3, h4⟩
  · have hl2 : P.linux = false := by simpa using hl
    simp only [hl2, Bool.false_eq_true, if_false]
    obtain ⟨h1, h2, h3, h4⟩ := hvt []
    exact ⟨h1, fun hf => absurd hf (by decide), fun _ => h2, h3, h4⟩

/-- The body of the adopting constructor issues `getsockopt` calls only. -/
theorem adopt_body_trace (P : Platform) (fd : FileDescriptor) (domain type protocol : Int)
    (os : AdoptReplies) :
    ∀ c ∈ (Socket.Socket_body P fd domain type protocol os).trace,
      ∃ level option, c = Syscall.getsockopt fd.fd_num level option := by
  have hvt : ∀ trace : List Syscall,
      (∀ c ∈ trace, ∃ level option, c = Syscall.getsockopt fd.fd_num level option) →
      ∀ c ∈ (Socket.verify_type fd type os trace).trace,
        ∃ level option, c = Syscall.getsockopt fd.fd_num level option := by
    intro trace htrace c hc
    have hmem : c ∈ trace ++ [Syscall.getsockopt fd.fd_num SOL_SOCKET SO_TYPE] := by
      unfold Socket.verify_type at hc
      cases hg : Socket.getsockopt os.type with
      | error e => simpa [hg] using hc
      | ok v =>
        obtain ⟨len, actual_value⟩ := v
        simp only [hg] at hc
        split_ifs at hc <;> simpa using hc
    rcases List.mem_append.mp hmem with h | h
    · exact htrace c h
    · exact ⟨_, _, List.mem_singleton.mp h⟩
  have hvp : ∀ trace : List Syscall,
      (∀ c ∈ trace, ∃ level option, c = Syscall.getsockopt fd.fd_num level option) →
      ∀ c ∈ (Socket.verify_protocol fd type protocol os trace).trace,
        ∃ level option, c = Syscall.getsockopt fd.fd_num level option := by
    intro trace htrace c hc
    have hext : ∀ c ∈ trace ++ [Syscall.getsockopt fd.fd_num SOL_SOCKET SO_PROTOCOL],
        ∃ level option, c = Syscall.getsockopt fd.fd_num level option := by
      intro c hc
      rcases List.mem_append.mp hc with h | h
      · exact htrace c h
      · exact ⟨_, _, List.mem_singleton.mp h⟩
    unfold Socket.verify_protocol at hc
    cases hg : Socket.getsockopt os.protocol with
    | error e =>
      simp only [hg] at hc
      exact hext c hc
    | ok v =>
      obtain ⟨len, actual_value⟩ := v
      simp only [hg] at hc
      split_ifs at hc
      · exact hext c hc
      · exact hvt _ hext c hc
  have hsingle : ∀ c ∈ [Syscall.getsockopt fd.fd_num SOL_SOCKET SO_DOMAIN],
      ∃ level option, c = Syscall.getsockopt fd.fd_num level option := by
    intro c hc
    exact ⟨_, _, List.mem_singleton.mp hc⟩
  intro c hc
  unfold Socket.Socket_body at hc
  split_ifs at hc with hl
  · cases hg : Socket.getsockopt os.domain with
    | error e =>
      simp only [hg] at hc
      exact hsingle c hc
    | ok v =>
      obtain ⟨len, actual_value⟩ := v
      simp only [hg] at hc
      split_ifs at hc
      · exact hsingle c hc
      · exact hvp _ hsingle c hc
  · exact hvt [] (by simp) c hc

/-! ## Claims -/

/-- C1, as stated, fails once the sizes overflow `size_t`. A list of 2^18 views of
one 2^46-byte region is not empty and has no empty element, yet its sizes add
up to 2^64, the total wraps to zero and `to_iovecs` raises; with one view more
it returns 2^46, which is not the sum of the sizes. -/
theorem C1_to_iovecs_overflow :
    List.replicate (2 ^ 18) (⟨4096, List.replicate (2 ^ 46) 0⟩ : string_view) ≠ [] ∧
    (∀ x ∈ List.replicate (2 ^ 18) (⟨4096, List.replicate (2 ^ 46) 0⟩ : string_view),
      x.size ≠ 0) ∧
    raised (to_iovecs
      (List.replicate (2 ^ 18) (⟨4096, List.replicate (2 ^ 46) 0⟩ : string_view)) []).result
      = true ∧
    (to_iovecs
      (List.replicate (2 ^ 18 + 1) (⟨4096, List.replicate (2 ^ 46) 0⟩ : string_view)) []).result
      = .ok (2 ^ 46) ∧
    ((List.replicate (2 ^ 18 + 1) (⟨4096, List.replicate (2 ^ 46) 0⟩ : string_view)).map
      string_view.size).sum = 2 ^ 64 + 2 ^ 46 := by
  have hsz : (⟨4096, List.replicate (2 ^ 46) 0⟩ : string_view).size = 2 ^ 46 :=
    List.length_replicate _ _
  have hall : ∀ n : Nat, ∀ x ∈ List.replicate n
      (⟨4096, List.replicate (2 ^ 46) 0⟩ : string_view), x.size ≠ 0 := by
    intro n x hx
    rw [List.eq_of_mem_replicate hx, hsz]
    decide
  have hsum : ∀ n : Nat, ((List.replicate n
      (⟨4096, List.replicate (2 ^ 46) 0⟩ : string_view)).map string_view.size).sum
        = n * 2 ^ 46 := by
    intro n
    rw [List.map_replicate, List.sum_replicate, hsz, smul_eq_mul]
  have hne : ∀ n : Nat, n ≠ 0 → List.replicate n
      (⟨4096, List.replicate (2 ^ 46) 0⟩ : string_view) ≠ [] := by
    intro n hn h
    have := congrArg List.length h
    rw [List.length_replicate] at this
    exact hn this
  refine ⟨hne _ (by decide), hall _, ?_, ?_, ?_⟩
  · rw [to_iovecs_wrapped _ [] (hne _ (by decide)) (hall _), hsum]
    have h0 : 2 ^ 18 * 2 ^ 46 % SIZE_RANGE = 0 := by decide
    rw [if_pos h0]
    rfl
  · rw [to_iovecs_wrapped _ [] (hne _ (by decide)) (hall _), hsum]
    have h1 : (2 ^ 18 + 1) * 2 ^ 46 % SIZE_RANGE = 2 ^ 46 := by decide
    rw [h1, if_neg (by decide)]
  · rw [hsum]
    decide

/-- C1, amended. `FileDescriptor::to_iovecs` raises when the buffer list is empty or
holds an empty element. On every other list whose sizes add up to less than
`SIZE_RANGE`, the range of `size_t`, it returns the sum of the element
lengths, which is nonzero, and leaves in `iovecs` one (pointer, length) entry
per element, in order, with the element's `data()` and `size()`. -/
theorem C1_to_iovecs_contract (buffers : List string_view) (iovecs : List iovec) :
    ((buffers = [] ∨ ∃ x ∈ buffers, x.size = 0) →
      raised (to_iovecs buffers iovecs).result = true) ∧
    (¬ (buffers = [] ∨ ∃ x ∈ buffers, x.size = 0) →
      (buffers.map string_view.size).sum < SIZE_RANGE →
      (to_iovecs buffers iovecs).result = .ok (buffers.map string_view.size).sum ∧
      (to_iovecs buffers iovecs).iovecs
        = buffers.map (fun x => (⟨x.data, x.size⟩ : iovec)) ∧
      0 < (buffers.map string_view.size).sum) := by
  constructor
  · intro h
    exact to_iovecs_raises buffers iovecs h
  · intro h hfit
    have hne : buffers ≠ [] := fun e => h (Or.inl e)
    have hall : ∀ x ∈ buffers, x.size ≠ 0 := fun x hx h0 => h (Or.inr ⟨x, hx, h0⟩)
    rw [to_iovecs_ok buffers iovecs hne hall hfit]
    exact ⟨rfl, rfl, sum_sizes_pos buffers hne hall⟩

theorem C1_to_iovecs_contract_witness :
    (to_iovecs [⟨100, [1, 2]⟩, ⟨200, [3]⟩] [⟨7, 7⟩]).result = .ok 3 ∧
    (to_iovecs [⟨100, [1, 2]⟩, ⟨200, [3]⟩] [⟨7, 7⟩]).iovecs = [⟨100, 2⟩, ⟨200, 1⟩] ∧
    raised (to_iovecs [⟨100, [1, 2]⟩, ⟨200, []⟩] [⟨7, 7⟩]).result = true ∧
    raised (to_iovecs [] [⟨7, 7⟩]).result = true :=
  ⟨((C1_to_iovecs_contract [⟨100, [1, 2]⟩, ⟨200, [3]⟩] [⟨7, 7⟩]).2 (by decide)
      (by decide)).1,
   ((C1_to_iovecs_contract [⟨100, [1, 2]⟩, ⟨200, [3]⟩] [⟨7, 7⟩]).2 (by decide)
      (by decide)).2.1,
   (C1_to_iovecs_contract [⟨100, [1, 2]⟩, ⟨200, []⟩] [⟨7, 7⟩]).1
     (Or.inr ⟨⟨200, []⟩, by decide, rfl⟩),
   (C1_to_iovecs_contract [] [⟨7, 7⟩]).1 (Or.inl rfl)⟩

/-- C3, evaluated. A single-buffer `DatagramSocket::recv` into a four-character
buffer, the kernel delivering the two-byte datagram `Hi` and a valid sender
record, returns normally with the sender recorded, yet the buffer is still
four characters long: the datagram followed by two stale characters. -/
theorem C3_recv_buffer_not_shortened :
    returned (DatagramSocket.recv ⟨true, 128⟩ ⟨3, false, false, false, 0, 0⟩ ⟨[], 0⟩
        ⟨100, [9, 9, 9, 9]⟩ 4096 ⟨.ok 2, [72, 105], [2, 0, 0, 80], 16⟩).result = true ∧
    (DatagramSocket.recv ⟨true, 128⟩ ⟨3, false, false, false, 0, 0⟩ ⟨[], 0⟩
        ⟨100, [9, 9, 9, 9]⟩ 4096 ⟨.ok 2, [72, 105], [2, 0, 0, 80], 16⟩).payload.bytes
      = [72, 105, 9, 9] ∧
    (DatagramSocket.recv ⟨true, 128⟩ ⟨3, false, false, false, 0, 0⟩ ⟨[], 0⟩
        ⟨100, [9, 9, 9, 9]⟩ 4096 ⟨.ok 2, [72, 105], [2, 0, 0, 80], 16⟩).payload.size = 4 ∧
    (DatagramSocket.recv ⟨true, 128⟩ ⟨3, false, false, false, 0, 0⟩ ⟨[], 0⟩
        ⟨100, [9, 9, 9, 9]⟩ 4096 ⟨.ok 2, [72, 105], [2, 0, 0, 80], 16⟩).source_address
      = ⟨[2, 0, 0, 80], 16⟩ := by
  decide

/-- C4. When the checked OS send call returns `bytes_sent`, `DatagramSocket::send`
returns normally exactly when `bytes_sent` is the full payload length
(`payload.size()` for the single-buffer form, `total_size` for the vectored
form) and raises for every other count; and whatever the kernel answers, each
form issues exactly one OS call, its `sendto` resp. `sendmsg`. -/
theorem C4_send_all_or_nothing (fd : FileDescriptor) (payload : string_view)
    (iovecs : List iovec) (total_size : Nat) (destination : Option Address)
    (bytes_sent : Nat) (checked : Except Error Nat) :
    (returned (DatagramSocket.send fd payload destination (.ok bytes_sent)).result = true
      ↔ bytes_sent = payload.size) ∧
    (raised (DatagramSocket.send fd payload destination (.ok bytes_sent)).result = true
      ↔ bytes_sent ≠ payload.size) ∧
    (returned (DatagramSocket.send_iovecs fd iovecs total_size destination
        (.ok bytes_sent)).result = true ↔ bytes_sent = total_size) ∧
    (raised (DatagramSocket.send_iovecs fd iovecs total_size destination
        (.ok bytes_sent)).result = true ↔ bytes_sent ≠ total_size) ∧
    (DatagramSocket.send fd payload destination checked).trace
      = [Syscall.sendto fd.fd_num payload.data payload.size 0 destination] ∧
    (DatagramSocket.send_iovecs fd iovecs total_size destination checked).trace
      = [Syscall.sendmsg fd.fd_num iovecs 0 destination] := by
  refine ⟨?_, ?_, ?_, ?_, ?_, ?_⟩
  · by_cases h : bytes_sent = payload.size <;> simp [DatagramSocket.send, returned, h]
  · by_cases h : bytes_sent = payload.size <;> simp [DatagramSocket.send, raised, h]
  · by_cases h : bytes_sent = total_size <;> simp [DatagramSocket.send_iovecs, returned, h]
  · by_cases h : bytes_sent = total_size <;> simp [DatagramSocket.send_iovecs, raised, h]
  · unfold DatagramSocket.send
    cases checked with
    | error e => rfl
    | ok n => simp only []; split_ifs <;> rfl
  · unfold DatagramSocket.send_iovecs
    cases checked with
    | error e => rfl
    | ok n => simp only []; split_ifs <;> rfl

/-- C5. A `DatagramSocket::recv` for which the kernel reports truncation raises. The
single-buffer form raises when the reported length exceeds the size of the
buffer handed to the kernel; the vectored form raises when the reported length
exceeds the total size of the buffers handed to the kernel or `MSG_TRUNC` is
set in the returned flags. In both cases every buffer keeps the size it was
handed to the kernel with: none is shortened. -/
theorem C5_recv_truncation_raises (P : Platform) (fd : FileDescriptor)
    (source_address : Address) (payload : std_string) (fresh : Nat) (reply : RecvfromReply)
    (payloads : List std_string) (vreply : RecvmsgReply) (recv_len : Nat) :
    (reply.checked = .ok recv_len →
      recv_len > (if payload.size = 0 then kReadBufferSize else payload.size) →
      raised (DatagramSocket.recv P fd source_address payload fresh reply).result = true ∧
      (DatagramSocket.recv P fd source_address payload fresh reply).payload.size =
        (if payload.size = 0 then kReadBufferSize else payload.size)) ∧
    (vreply.checked = .ok recv_len →
      (recv_len > ((resize_back_if_empty payloads fresh).map string_view.size).sum ∨
        vreply.msg_flags &&& MSG_TRUNC ≠ 0) →
      raised (DatagramSocket.recv_vector P fd source_address payloads fresh vreply).result = true ∧
      ((DatagramSocket.recv_vector P fd source_address payloads fresh vreply).payload).map
          string_view.size = (resize_back_if_empty payloads fresh).map string_view.size) := by
  constructor
  · intro hok hgt
    refine ⟨?_, recv_payload_size P fd source_address payload fresh reply⟩
    unfold DatagramSocket.recv
    simp only [hok]
    by_cases h0 : payload.size = 0
    · simp only [h0, if_true] at hgt
      simp [string_view.empty, h0, size_kernel_store, size_resize, hgt, raised]
    · simp only [h0, if_false] at hgt
      simp [string_view.empty, h0, size_kernel_store, hgt, raised]
  · intro hok htr
    unfold DatagramSocket.recv_vector
    by_cases hne : payloads = []
    · subst hne
      simp [raised, resize_back_if_empty]
    simp only [List.isEmpty_iff, hne, if_false]
    by_cases hall : ∀ x ∈ resize_back_if_empty payloads fresh, x.size ≠ 0
    · have hne2 : resize_back_if_empty payloads fresh ≠ [] := by
        intro h
        unfold resize_back_if_empty at h
        cases hl : payloads.getLast? with
        | none => simp [List.getLast?_eq_none_iff] at hl; exact hne hl
        | some back =>
          rw [hl] at h
          simp only at h
          split_ifs at h
          · simp at h
          · exact hne h
      have hmod : ((resize_back_if_empty payloads fresh).map string_view.size).sum % SIZE_RANGE
          ≤ ((resize_back_if_empty payloads fresh).map string_view.size).sum := Nat.mod_le _ _
      rw [to_iovecs_wrapped _ [] hne2 hall]
      by_cases hz : ((resize_back_if_empty payloads fresh).map string_view.size).sum
          % SIZE_RANGE = 0
      · rw [if_pos hz]
        simp [raised]
      · rw [if_neg hz]
        simp only [hok]
        split_ifs with h1 h2 h3
        · simp [raised, sizes_kernel_scatter]
        · simp [raised, sizes_kernel_scatter]
        · simp [raised, sizes_kernel_scatter]
        · rcases htr with h | h
          · exact absurd (by omega) h1
          · exact absurd h h2
    · have hr := to_iovecs_raises (resize_back_if_empty payloads fresh) [] (Or.inr (by
        push_neg at hall; exact hall))
      cases hio : to_iovecs (resize_back_if_empty payloads fresh) [] with
      | mk iov res =>
        rw [hio] at hr
        cases res with
        | error e => simp [raised]
        | ok t => simp [raised] at hr

theorem C5_recv_truncation_raises_witness :
    raised (DatagramSocket.recv ⟨true, 128⟩ ⟨3, false, false, false, 0, 0⟩ ⟨[], 0⟩
      ⟨100, [9, 9]⟩ 4096 ⟨.ok 3, [1, 2, 3], [2, 0, 0, 80], 16⟩).result = true ∧
    raised (DatagramSocket.recv_vector ⟨true, 128⟩ ⟨3, false, false, false, 0, 0⟩ ⟨[], 0⟩
      [⟨100, [9]⟩, ⟨200, [9]⟩] 4096 ⟨.ok 2, [1, 2], [2, 0, 0, 80], 16, 0x20⟩).result = true :=
  ⟨((C5_recv_truncation_raises ⟨true, 128⟩ ⟨3, false, false, false, 0, 0⟩ ⟨[], 0⟩
      ⟨100, [9, 9]⟩ 4096 ⟨.ok 3, [1, 2, 3], [2, 0, 0, 80], 16⟩
      [⟨100, [9]⟩, ⟨200, [9]⟩] ⟨.ok 3, [1, 2], [2, 0, 0, 80], 16, 0x20⟩ 3).1
      rfl (by decide)).1,
   ((C5_recv_truncation_raises ⟨true, 128⟩ ⟨3, false, false, false, 0, 0⟩ ⟨[], 0⟩
      ⟨100, [9, 9]⟩ 4096 ⟨.ok 3, [1, 2, 3], [2, 0, 0, 80], 16⟩
      [⟨100, [9]⟩, ⟨200, [9]⟩] ⟨.ok 2, [1, 2], [2, 0, 0, 80], 16, 0x20⟩ 2).2
      rfl (Or.inr (by decide))).1⟩

/-- C6, as stated, fails on a build without `__linux__`: a handle whose kernel-side
domain is 1 and protocol is 0, adopted under the declared domain 2, type 1 and
protocol 6, is accepted, because only the type is queried. -/
theorem C6_adopt_ignores_domain_off_linux :
    returned (Socket.Socket ⟨false, 128⟩ ⟨3, false, false, false, 0, 0⟩ 0 2 1 6
      ⟨⟨.ok (), 4, 1⟩, ⟨.ok (), 4, 0⟩, ⟨.ok (), 4, 1⟩⟩).result = true ∧
    (Socket.Socket ⟨false, 128⟩ ⟨3, false, false, false, 0, 0⟩ 0 2 1 6
      ⟨⟨.ok (), 4, 1⟩, ⟨.ok (), 4, 0⟩, ⟨.ok (), 4, 1⟩⟩).trace
      = [Syscall.getsockopt 3 SOL_SOCKET SO_TYPE] := by
  decide

/-- C6, amended. Let the kernel answer each option query without error. On a Linux
build, adopting a handle succeeds exactly when the three answers are
`int`-sized and equal the declared domain, protocol and type; on any other
build it succeeds exactly when the type answer is `int`-sized and equals the
declared type, domain and protocol being ignored. A successful adoption
returns the handle with its counters and flags as they were and closes
nothing. A failed one raises a `runtime_error` and drops the handle that was
moved in: shared with another handle, the wrapper stays as it was and nothing
is closed; as the last handle of an open descriptor, the wrapper is destroyed
and the last OS call is the `close` of the descriptor. Whenever the wrapper
survives, its counters and flags are unchanged. -/
theorem C6_adopt_validation (P : Platform) (fd : FileDescriptor) (others : Nat)
    (domain type protocol : Int) (os : AdoptReplies)
    (hd : os.domain.checked = .ok ()) (hp : os.protocol.checked = .ok ())
    (ht : os.type.checked = .ok ()) :
    (P.linux = true →
      (returned (Socket.Socket P fd others domain type protocol os).result = true ↔
        (os.domain.optlen = sizeof_int ∧ os.domain.option_value = domain) ∧
        (os.protocol.optlen = sizeof_int ∧ os.protocol.option_value = protocol) ∧
        (os.type.optlen = sizeof_int ∧ os.type.option_value = type))) ∧
    (P.linux = false →
      (returned (Socket.Socket P fd others domain type protocol os).result = true ↔
        (os.type.optlen = sizeof_int ∧ os.type.option_value = type))) ∧
    (returned (Socket.Socket P fd others domain type protocol os).result = true →
      (Socket.Socket P fd others domain type protocol os).result = .ok fd ∧
      (Socket.Socket P fd others domain type protocol os).wrapper = some fd ∧
      Syscall.close fd.fd_num ∉ (Socket.Socket P fd others domain type protocol os).trace) ∧
    (returned (Socket.Socket P fd others domain type protocol os).result = false →
      (∃ what, (Socket.Socket P fd others domain type protocol os).result
        = .error (.runtime_error what)) ∧
      (others ≠ 0 →
        (Socket.Socket P fd others domain type protocol os).wrapper = some fd ∧
        Syscall.close fd.fd_num ∉
          (Socket.Socket P fd others domain type protocol os).trace) ∧
      (others = 0 →
        (Socket.Socket P fd others domain type protocol os).wrapper = none ∧
        (fd.closed = false →
          (Socket.Socket P fd others domain type protocol os).trace.getLast?
            = some (Syscall.close fd.fd_num)) ∧
        (fd.closed = true → Syscall.close fd.fd_num ∉
          (Socket.Socket P fd others domain type protocol os).trace))) ∧
    (∀ w, (Socket.Socket P fd others domain type protocol os).wrapper = some w → w = fd) := by
  obtain ⟨hfd, hlin, hoff, hok, herr⟩ := adopt_body_checks P fd domain type protocol os hd hp ht
  have htrace := adopt_body_trace P fd domain type protocol os
  have hnoclose : Syscall.close fd.fd_num ∉
      (Socket.Socket_body P fd domain type protocol os).trace := by
    intro hmem
    obtain ⟨level, option, h⟩ := htrace _ hmem
    cases h
  cases hres : (Socket.Socket_body P fd domain type protocol os).result with
  | ok adopted =>
    have hret : returned (Socket.Socket_body P fd domain type protocol os).result = true := by
      rw [hres]; rfl
    have hadopted := hok hret
    rw [hres] at hadopted
    have hout : Socket.Socket P fd others domain type protocol os =
        ⟨some fd, (Socket.Socket_body P fd domain type protocol os).trace, .ok fd⟩ := by
      unfold Socket.Socket
      simp only [hres, hfd]
      rw [Except.ok.inj hadopted]
    rw [hout]
    refine ⟨fun hl => ?_, fun hl => ?_, fun _ => ⟨rfl, rfl, hnoclose⟩, fun hf => ?_, ?_⟩
    · exact ⟨fun _ => (hlin hl).mp hret, fun _ => rfl⟩
    · exact ⟨fun _ => (hoff hl).mp hret, fun _ => rfl⟩
    · exact absurd hf (by simp [returned])
    · intro w hw
      exact (Option.some.inj hw).symm
  | error e =>
    have hret : returned (Socket.Socket_body P fd domain type protocol os).result = false := by
      rw [hres]; rfl
    obtain ⟨what, hwhat⟩ := herr hret
    have hout : Socket.Socket P fd others domain type protocol os =
        ⟨(drop_handle fd others).1,
          (Socket.Socket_body P fd domain type protocol os).trace ++ (drop_handle fd others).2,
          .error (.runtime_error what)⟩ := by
      unfold Socket.Socket
      rw [hres] at hwhat
      simp only [hres, hfd]
      rw [Except.error.inj hwhat]
    rw [hout]
    refine ⟨fun hl => ?_, fun hl => ?_, fun hf => ?_, fun _ => ⟨⟨what, rfl⟩, ?_, ?_⟩, ?_⟩
    · constructor
      · intro hf; exact absurd hf (by simp [returned])
      · intro h; rw [(hlin hl).mpr h] at hret; exact absurd hret (by decide)
    · constructor
      · intro hf; exact absurd hf (by simp [returned])
      · intro h; rw [(hoff hl).mpr h] at hret; exact absurd hret (by decide)
    · exact absurd hf (by simp [returned])
    · intro hothers
      have hdrop : drop_handle fd others = (some fd, []) := by
        simp [drop_handle, hothers]
      rw [hdrop, List.append_nil]
      exact ⟨rfl, hnoclose⟩
    · intro hothers
      refine ⟨by simp [drop_handle, hothers], fun hopen => ?_, fun hclosed => ?_⟩
      · have hc : fd.closed_ = false := hopen
        simp [drop_handle, hothers, hc]
      · have hc : fd.closed_ = true := hclosed
        simpa [drop_handle, hothers, hc] using hnoclose
    · intro w hw
      by_cases hothers : others = 0
      · simp [drop_handle, hothers] at hw
      · simp only [drop_handle, hothers, if_false] at hw
        exact (Option.some.inj hw).symm

theorem C6_adopt_validation_witness :
    returned (Socket.Socket ⟨true, 128⟩ ⟨3, false, false, false, 5, 7⟩ 0 2 1 6
      ⟨⟨.ok (), 4, 2⟩, ⟨.ok (), 4, 6⟩, ⟨.ok (), 4, 2⟩⟩).result = false ∧
    (Socket.Socket ⟨true, 128⟩ ⟨3, false, false, false, 5, 7⟩ 0 2 1 6
      ⟨⟨.ok (), 4, 2⟩, ⟨.ok (), 4, 6⟩, ⟨.ok (), 4, 2⟩⟩).wrapper = none ∧
    (Socket.Socket ⟨true, 128⟩ ⟨3, false, false, false, 5, 7⟩ 0 2 1 6
      ⟨⟨.ok (), 4, 2⟩, ⟨.ok (), 4, 6⟩, ⟨.ok (), 4, 2⟩⟩).trace.getLast?
      = some (Syscall.close 3) ∧
    (Socket.Socket ⟨true, 128⟩ ⟨3, false, false, false, 5, 7⟩ 1 2 1 6
      ⟨⟨.ok (), 4, 2⟩, ⟨.ok (), 4, 6⟩, ⟨.ok (), 4, 1⟩⟩).wrapper
      = some ⟨3, false, false, false, 5, 7⟩ :=
  ⟨by decide,
   (((C6_adopt_validation ⟨true, 128⟩ ⟨3, false, false, false, 5, 7⟩ 0 2 1 6
      ⟨⟨.ok (), 4, 2⟩, ⟨.ok (), 4, 6⟩, ⟨.ok (), 4, 2⟩⟩ rfl rfl rfl).2.2.2.1
      (by decide)).2.2 rfl).1,
   ((((C6_adopt_validation ⟨true, 128⟩ ⟨3, false, false, false, 5, 7⟩ 0 2 1 6
      ⟨⟨.ok (), 4, 2⟩, ⟨.ok (), 4, 6⟩, ⟨.ok (), 4, 2⟩⟩ rfl rfl rfl).2.2.2.1
      (by decide)).2.2 rfl).2).1 rfl,
   ((C6_adopt_validation ⟨true, 128⟩ ⟨3, false, false, false, 5, 7⟩ 1 2 1 6
      ⟨⟨.ok (), 4, 2⟩, ⟨.ok (), 4, 6⟩, ⟨.ok (), 4, 1⟩⟩ rfl rfl rfl).2.2.1
      (by decide)).2.1⟩

/-- C7. A `Socket::shutdown( how )` whose OS call succeeds returns normally for the
three directions and counts them: `SHUT_RD` adds one to `read_count` (in the
counter's `unsigned` arithmetic) and keeps `write_count`, `SHUT_WR` adds one
to `write_count` and keeps `read_count`, `SHUT_RDWR` adds one to both. Every
other `how` raises a `runtime_error` and leaves the handle, both counters
included, as it was. -/
theorem C7_shutdown_counters (fd : FileDescriptor) (how : Int) (ret : Int) :
    (how = SHUT_RD →
      (Socket.shutdown fd how (.ok ret)).result = .ok () ∧
      (Socket.shutdown fd how (.ok ret)).fd.read_count = (fd.read_count + 1) % UINT_RANGE ∧
      (Socket.shutdown fd how (.ok ret)).fd.write_count = fd.write_count) ∧
    (how = SHUT_WR →
      (Socket.shutdown fd how (.ok ret)).result = .ok () ∧
      (Socket.shutdown fd how (.ok ret)).fd.write_count = (fd.write_count + 1) % UINT_RANGE ∧
      (Socket.shutdown fd how (.ok ret)).fd.read_count = fd.read_count) ∧
    (how = SHUT_RDWR →
      (Socket.shutdown fd how (.ok ret)).result = .ok () ∧
      (Socket.shutdown fd how (.ok ret)).fd.read_count = (fd.read_count + 1) % UINT_RANGE ∧
      (Socket.shutdown fd how (.ok ret)).fd.write_count
        = (fd.write_count + 1) % UINT_RANGE) ∧
    (how ≠ SHUT_RD → how ≠ SHUT_WR → how ≠ SHUT_RDWR →
      raised (Socket.shutdown fd how (.ok ret)).result = true ∧
      (Socket.shutdown fd how (.ok ret)).fd = fd) ∧
    (fd.read_count + 1 < UINT_RANGE → (fd.read_count + 1) % UINT_RANGE = fd.read_count + 1) ∧
    (fd.write_count + 1 < UINT_RANGE →
      (fd.write_count + 1) % UINT_RANGE = fd.write_count + 1) := by
  refine ⟨?_, ?_, ?_, ?_, Nat.mod_eq_of_lt, Nat.mod_eq_of_lt⟩
  · rintro rfl
    simp [Socket.shutdown, register_read, FDWrapper.read_count, FDWrapper.write_count]
  · rintro rfl
    simp [Socket.shutdown, register_write, FDWrapper.read_count, FDWrapper.write_count,
      SHUT_WR, SHUT_RD]
  · rintro rfl
    simp [Socket.shutdown, register_read, register_write, FDWrapper.read_count,
      FDWrapper.write_count, SHUT_WR, SHUT_RD, SHUT_RDWR]
  · intro h1 h2 h3
    simp [Socket.shutdown, h1, h2, h3, raised]

theorem C7_shutdown_counters_witness :
    (Socket.shutdown ⟨3, false, false, false, 5, 7⟩ SHUT_RD (.ok 0)).fd.read_count = 6 ∧
    (Socket.shutdown ⟨3, false, false, false, 5, 7⟩ SHUT_RD (.ok 0)).fd.write_count = 7 ∧
    (Socket.shutdown ⟨3, false, false, false, 5, 7⟩ SHUT_WR (.ok 0)).fd.write_count = 8 ∧
    (Socket.shutdown ⟨3, false, false, false, 5, 7⟩ SHUT_RDWR (.ok 0)).fd.read_count = 6 ∧
    raised (Socket.shutdown ⟨3, false, false, false, 5, 7⟩ 3 (.ok 0)).result = true :=
  ⟨((C7_shutdown_counters ⟨3, false, false, false, 5, 7⟩ SHUT_RD 0).1 rfl).2.1,
   ((C7_shutdown_counters ⟨3, false, false, false, 5, 7⟩ SHUT_RD 0).1 rfl).2.2,
   ((C7_shutdown_counters ⟨3, false, false, false, 5, 7⟩ SHUT_WR 0).2.1 rfl).2.1,
   ((C7_shutdown_counters ⟨3, false, false, false, 5, 7⟩ SHUT_RDWR 0).2.2.1 rfl).2.1,
   ((C7_shutdown_counters ⟨3, false, false, false, 5, 7⟩ 3 0).2.2.2.1
      (by decide) (by decide) (by decide)).1⟩

/-- C8, evaluated. On a non-blocking listener whose `read_count` is 5, a
`TCPSocket::accept` whose OS call fails (error 11, no connection pending)
raises and returns no connection, yet `read_count` is 6 afterwards: the read
is counted before the OS call. A second call, which does accept a connection,
brings it to 7, so one accepted connection has been counted twice. -/
theorem C8_accept_counts_failed_call :
    raised (TCPSocket.accept ⟨3, false, false, true, 5, 7⟩ (.error (.unix_error "accept" 11))
      (fun n => .ok ⟨n, false, false, false, 0, 0⟩)).result = true ∧
    (TCPSocket.accept ⟨3, false, false, true, 5, 7⟩ (.error (.unix_error "accept" 11))
      (fun n => .ok ⟨n, false, false, false, 0, 0⟩)).fd.read_count = 6 ∧
    returned (TCPSocket.accept
      (TCPSocket.accept ⟨3, false, false, true, 5, 7⟩ (.error (.unix_error "accept" 11))
        (fun n => .ok ⟨n, false, false, false, 0, 0⟩)).fd
      (.ok 4) (fun n => .ok ⟨n, false, false, false, 0, 0⟩)).result = true ∧
    (TCPSocket.accept
      (TCPSocket.accept ⟨3, false, false, true, 5, 7⟩ (.error (.unix_error "accept" 11))
        (fun n => .ok ⟨n, false, false, false, 0, 0⟩)).fd
      (.ok 4) (fun n => .ok ⟨n, false, false, false, 0, 0⟩)).fd.read_count = 7 := by
  decide

/-- C9. When the `SO_ERROR` query succeeds and returns an `int`-sized value,
`Socket::throw_if_error` raises a `unix_error` carrying the latched code when
the code is nonzero and returns normally when it is zero, so it raises exactly
when the code is nonzero; the handle is the same after the call as before. -/
theorem C9_throw_if_error (fd : FileDescriptor) (reply : GetsockoptReply)
    (hok : reply.checked = .ok ()) (hlen : reply.optlen = sizeof_int) :
    (reply.option_value ≠ 0 →
      (Socket.throw_if_error fd reply).result
        = .error (.unix_error "socket error" reply.option_value)) ∧
    (reply.option_value = 0 → (Socket.throw_if_error fd reply).result = .ok ()) ∧
    (raised (Socket.throw_if_error fd reply).result = true ↔ reply.option_value ≠ 0) ∧
    (Socket.throw_if_error fd reply).fd = fd := by
  unfold Socket.throw_if_error
  simp only [Socket.getsockopt, hok, hlen]
  by_cases h : reply.option_value = 0
  · simp [h, raised]
  · simp [h, raised]

theorem C9_throw_if_error_witness :
    (Socket.throw_if_error ⟨3, false, false, false, 5, 7⟩ ⟨.ok (), 4, 111⟩).result
      = .error (.unix_error "socket error" 111) ∧
    (Socket.throw_if_error ⟨3, false, false, false, 5, 7⟩ ⟨.ok (), 4, 0⟩).result = .ok () :=
  ⟨(C9_throw_if_error ⟨3, false, false, false, 5, 7⟩ ⟨.ok (), 4, 111⟩ rfl rfl).1 (by decide),
   (C9_throw_if_error ⟨3, false, false, false, 5, 7⟩ ⟨.ok (), 4, 0⟩ rfl rfl).2.1 rfl⟩

/-- C10. The vectored `DatagramSocket::recv` raises without having issued any OS
call when the buffer list is empty and when a buffer other than the last is
empty. When only the last buffer is empty it is resized to 16384 characters:
the one `recvmsg` is issued over the other buffers at their own sizes followed
by a 16384-byte entry at `fresh`, the address of the resized buffer; the total
capacity is the other sizes plus 16384; and the call returns normally for
every kernel answer that fits that capacity with `MSG_TRUNC` clear and a valid
sender length. The buffers are distinct strings in one address space, so
their sizes after the resize add up to less than `SIZE_RANGE`. -/
theorem C10_recv_vector_precheck (P : Platform) (fd : FileDescriptor)
    (source_address : Address) (fresh : Nat) (reply : RecvmsgReply)
    (init : List std_string) (back : std_string) :
    (raised (DatagramSocket.recv_vector P fd source_address [] fresh reply).result = true ∧
      (DatagramSocket.recv_vector P fd source_address [] fresh reply).trace = []) ∧
    ((∃ b ∈ init, b.size = 0) →
      raised (DatagramSocket.recv_vector P fd source_address (init ++ [back]) fresh reply).result
        = true ∧
      (DatagramSocket.recv_vector P fd source_address (init ++ [back]) fresh reply).trace = []) ∧
    ((∀ b ∈ init, b.size ≠ 0) → back.size = 0 →
      (init.map string_view.size).sum + 16384 < SIZE_RANGE →
      (DatagramSocket.recv_vector P fd source_address (init ++ [back]) fresh reply).trace =
        [Syscall.recvmsg fd.fd_num
          (init.map (fun x => (⟨x.data, x.size⟩ : iovec)) ++ [⟨fresh, 16384⟩]) MSG_TRUNC] ∧
      (to_iovecs (resize_back_if_empty (init ++ [back]) fresh) []).result =
        .ok ((init.map string_view.size).sum + 16384) ∧
      (∀ recv_len : Nat, reply.checked = .ok recv_len →
        recv_len ≤ (init.map string_view.size).sum + 16384 →
        reply.msg_flags &&& MSG_TRUNC = 0 →
        0 < reply.msg_namelen → reply.msg_namelen ≤ P.sizeof_Raw →
        returned (DatagramSocket.recv_vector P fd source_address (init ++ [back]) fresh reply).result
          = true)) := by
  refine ⟨?_, ?_, ?_⟩
  · simp [DatagramSocket.recv_vector, raised]
  · rintro ⟨b, hb, hb0⟩
    have hmem : ∃ x ∈ resize_back_if_empty (init ++ [back]) fresh, x.size = 0 := by
      rw [resize_back_concat]
      split_ifs
      · exact ⟨b, List.mem_append_left _ hb, hb0⟩
      · exact ⟨b, List.mem_append_left _ hb, hb0⟩
    have hr := to_iovecs_raises (resize_back_if_empty (init ++ [back]) fresh) [] (Or.inr hmem)
    unfold DatagramSocket.recv_vector
    cases hio : to_iovecs (resize_back_if_empty (init ++ [back]) fresh) [] with
    | mk iov res =>
      rw [hio] at hr
      cases res with
      | error e => simp [hio, raised]
      | ok t => simp [raised] at hr
  · intro hinit hback hfit
    have hrb : resize_back_if_empty (init ++ [back]) fresh = init ++ [back.resize kReadBufferSize fresh] := by
      rw [resize_back_concat, if_pos hback]
    have hall : ∀ x ∈ init ++ [back.resize kReadBufferSize fresh], x.size ≠ 0 := by
      intro x hx
      rcases List.mem_append.mp hx with h | h
      · exact hinit x h
      · rw [List.mem_singleton.mp h, size_resize]
        decide
    have hsum : ((init ++ [back.resize kReadBufferSize fresh]).map string_view.size).sum =
        (init.map string_view.size).sum + 16384 := by
      simp [size_resize, kReadBufferSize]
    have hiov : (init ++ [back.resize kReadBufferSize fresh]).map
        (fun x => (⟨x.data, x.size⟩ : iovec)) =
        init.map (fun x => (⟨x.data, x.size⟩ : iovec)) ++ [⟨fresh, 16384⟩] := by
      have hdata : (back.resize kReadBufferSize fresh).data = fresh := by
        have hlt : ¬ kReadBufferSize ≤ back.size := by rw [hback]; decide
        simp only [std_string.resize, hlt, if_false]
      simp only [List.map_append, List.map_cons, List.map_nil, size_resize, hdata]
      rfl
    have hio := to_iovecs_ok (init ++ [back.resize kReadBufferSize fresh]) [] (by simp) hall
      (by rw [hsum]; exact hfit)
    rw [hsum, hiov] at hio
    have htrace : (DatagramSocket.recv_vector P fd source_address (init ++ [back]) fresh reply).trace =
        [Syscall.recvmsg fd.fd_num
          (init.map (fun x => (⟨x.data, x.size⟩ : iovec)) ++ [⟨fresh, 16384⟩])
          MSG_TRUNC] := by
      unfold DatagramSocket.recv_vector
      simp only [List.isEmpty_iff, List.append_ne_nil_of_right_ne_nil init (List.cons_ne_nil _ _),
        if_false, hrb, hio]
      cases reply.checked with
      | error e => rfl
      | ok n => simp only []; split_ifs <;> rfl
    refine ⟨htrace, ?_, ?_⟩
    · rw [hrb, hio]
    · intro recv_len hok hle hflag hpos hlen
      unfold DatagramSocket.recv_vector
      simp only [List.isEmpty_iff, List.append_ne_nil_of_right_ne_nil init (List.cons_ne_nil _ _),
        if_false, hrb, hio, hok]
      have h1 : ¬ recv_len > (init.map string_view.size).sum + 16384 := by omega
      have h2 : ¬ (reply.msg_flags &&& MSG_TRUNC ≠ 0) := by simp [hflag]
      have h3 : ¬ (reply.msg_namelen ≤ 0 ∨ reply.msg_namelen > P.sizeof_Raw) := by omega
      rw [if_neg h1, if_neg h2, if_neg h3]
      rfl

theorem C10_recv_vector_precheck_witness :
    (DatagramSocket.recv_vector ⟨true, 128⟩ ⟨3, false, false, false, 0, 0⟩ ⟨[], 0⟩
        ([⟨100, [9, 9]⟩] ++ [⟨200, []⟩]) 4096 ⟨.ok 5, [1, 2, 3, 4, 5], [2, 0, 0, 80], 16, 0⟩).trace =
      [Syscall.recvmsg 3 [⟨100, 2⟩, ⟨4096, 16384⟩] MSG_TRUNC] ∧
    raised (DatagramSocket.recv_vector ⟨true, 128⟩ ⟨3, false, false, false, 0, 0⟩ ⟨[], 0⟩
        ([⟨100, []⟩] ++ [⟨200, [9]⟩]) 4096 ⟨.ok 1, [1], [2, 0, 0, 80], 16, 0⟩).result = true ∧
    (DatagramSocket.recv_vector ⟨true, 128⟩ ⟨3, false, false, false, 0, 0⟩ ⟨[], 0⟩
        ([⟨100, []⟩] ++ [⟨200, [9]⟩]) 4096 ⟨.ok 1, [1], [2, 0, 0, 80], 16, 0⟩).trace = [] :=
  ⟨((C10_recv_vector_precheck ⟨true, 128⟩ ⟨3, false, false, false, 0, 0⟩ ⟨[], 0⟩ 4096
      ⟨.ok 5, [1, 2, 3, 4, 5], [2, 0, 0, 80], 16, 0⟩ [⟨100, [9, 9]⟩] ⟨200, []⟩).2.2
      (by decide) rfl (by decide)).1,
   ((C10_recv_vector_precheck ⟨true, 128⟩ ⟨3, false, false, false, 0, 0⟩ ⟨[], 0⟩ 4096
      ⟨.ok 1, [1], [2, 0, 0, 80], 16, 0⟩ [⟨100, []⟩] ⟨200, [9]⟩).2.1
      ⟨⟨100, []⟩, by decide, rfl⟩).1,
   ((C10_recv_vector_precheck ⟨true, 128⟩ ⟨3, false, false, false, 0, 0⟩ ⟨[], 0⟩ 4096
      ⟨.ok 1, [1], [2, 0, 0, 80], 16, 0⟩ [⟨100, []⟩] ⟨200, [9]⟩).2.1
      ⟨⟨100, []⟩, by decide, rfl⟩).2⟩

/-- C11. For every string and every `max_length`, `pretty_print( str, max_length )`
is at most `max_length + 3` characters long; and when `str` holds only
printable characters other than the double quote and is at most `max_length`
characters long, `pretty_print` returns the characters of `str` unchanged. -/
theorem C11_pretty_print_length_and_identity (str : string_view) (max_length : Nat) :
    (pretty_print str max_length).length ≤ max_length + 3 ∧
    ((∀ ch ∈ str.bytes, isprint ch = true ∧ ch ≠ 0x22) → str.size ≤ max_length →
      pretty_print str max_length = str.bytes) := by
  constructor
  · obtain ⟨hle, hsmall⟩ := pretty_print_loop_bound max_length str.bytes []
      (by simp) (fun _ => by simp)
    unfold pretty_print
    cases hloop : pretty_print_loop str.bytes max_length [] with
    | mk ret truncated =>
      rw [hloop] at hle hsmall
      simp only at hle hsmall ⊢
      split_ifs with ht h3
      · simp only [List.length_append, List.length_take, List.length_cons, List.length_nil]
        omega
      · have := hsmall (by omega)
        simp only [List.length_append, List.length_cons, List.length_nil]
        omega
      · exact hle
  · intro hall hlen
    have hcopy := pretty_print_loop_copy max_length str.bytes [] hall (by
      simpa [string_view.size] using hlen)
    unfold pretty_print
    rw [hcopy]
    simp

theorem C11_pretty_print_length_and_identity_witness :
    (pretty_print ⟨0, [97, 171, 98]⟩ 2).length ≤ 2 + 3 ∧
    pretty_print ⟨0, [72, 105, 33]⟩ 3 = [72, 105, 33] :=
  ⟨(C11_pretty_print_length_and_identity ⟨0, [97, 171, 98]⟩ 2).1,
   (C11_pretty_print_length_and_identity ⟨0, [72, 105, 33]⟩ 3).2 (by decide) (by decide)⟩

end Minnow
